import Mathlib

/-!
Verification of the Supplier Insights service core logic, shallowly embedded
from `app/llm_service.py`, `app/models.py` and `app/main.py`.

Modelling conventions: Python floats are modelled as exact rationals;
`json.loads` is modelled by an executable JSON reader covering the JSON
fragment without unicode escape sequences; Python exceptions are modelled by
`Except String` results.
-/

set_option maxRecDepth 20000

/-- Model of the Python values produced by the standard JSON decoder. -/
inductive JVal where
  | jnull : JVal
  | jbool : Bool → JVal
  | jnum : ℚ → JVal
  | jstr : String → JVal
  | jarr : List JVal → JVal
  | jobj : List (String × JVal) → JVal

mutual

/-- Decidable equality for JSON values. -/
def JVal.decEq : (a b : JVal) → Decidable (a = b)
  | .jnull, .jnull => .isTrue rfl
  | .jbool a, .jbool b =>
    if h : a = b then .isTrue (by rw [h]) else .isFalse (fun he => by cases he; exact h rfl)
  | .jnum a, .jnum b =>
    if h : a = b then .isTrue (by rw [h]) else .isFalse (fun he => by cases he; exact h rfl)
  | .jstr a, .jstr b =>
    if h : a = b then .isTrue (by rw [h]) else .isFalse (fun he => by cases he; exact h rfl)
  | .jarr xs, .jarr ys =>
    match JVal.decEqList xs ys with
    | .isTrue h => .isTrue (by rw [h])
    | .isFalse h => .isFalse (fun he => by cases he; exact h rfl)
  | .jobj xs, .jobj ys =>
    match JVal.decEqPairs xs ys with
    | .isTrue h => .isTrue (by rw [h])
    | .isFalse h => .isFalse (fun he => by cases he; exact h rfl)
  | .jnull, .jbool _ | .jnull, .jnum _ | .jnull, .jstr _ | .jnull, .jarr _ | .jnull, .jobj _
  | .jbool _, .jnull | .jbool _, .jnum _ | .jbool _, .jstr _ | .jbool _, .jarr _ | .jbool _, .jobj _
  | .jnum _, .jnull | .jnum _, .jbool _ | .jnum _, .jstr _ | .jnum _, .jarr _ | .jnum _, .jobj _
  | .jstr _, .jnull | .jstr _, .jbool _ | .jstr _, .jnum _ | .jstr _, .jarr _ | .jstr _, .jobj _
  | .jarr _, .jnull | .jarr _, .jbool _ | .jarr _, .jnum _ | .jarr _, .jstr _ | .jarr _, .jobj _
  | .jobj _, .jnull | .jobj _, .jbool _ | .jobj _, .jnum _ | .jobj _, .jstr _ | .jobj _, .jarr _ =>
    .isFalse (fun h => nomatch h)

/-- Decidable equality for lists of JSON values. -/
def JVal.decEqList : (xs ys : List JVal) → Decidable (xs = ys)
  | [], [] => .isTrue rfl
  | [], _ :: _ => .isFalse (fun h => nomatch h)
  | _ :: _, [] => .isFalse (fun h => nomatch h)
  | x :: xs, y :: ys =>
    match JVal.decEq x y with
    | .isFalse h1 => .isFalse (fun he => by cases he; exact h1 rfl)
    | .isTrue h1 =>
      match JVal.decEqList xs ys with
      | .isTrue h2 => .isTrue (by rw [h1, h2])
      | .isFalse h2 => .isFalse (fun he => by cases he; exact h2 rfl)

/-- Decidable equality for lists of key-value pairs. -/
def JVal.decEqPairs : (xs ys : List (String × JVal)) → Decidable (xs = ys)
  | [], [] => .isTrue rfl
  | [], _ :: _ => .isFalse (fun h => nomatch h)
  | _ :: _, [] => .isFalse (fun h => nomatch h)
  | (k1, v1) :: xs, (k2, v2) :: ys =>
    if hk : k1 = k2 then
      match JVal.decEq v1 v2 with
      | .isFalse h1 => .isFalse (fun he => by cases he; exact h1 rfl)
      | .isTrue h1 =>
        match JVal.decEqPairs xs ys with
        | .isTrue h2 => .isTrue (by rw [hk, h1, h2])
        | .isFalse h2 => .isFalse (fun he => by cases he; exact h2 rfl)
    else .isFalse (fun he => by cases he; exact hk rfl)

end

instance : DecidableEq JVal := JVal.decEq

instance {ε α : Type} [DecidableEq ε] [DecidableEq α] : DecidableEq (Except ε α)
  | .ok a, .ok b =>
    if h : a = b then .isTrue (by rw [h]) else .isFalse (fun he => by cases he; exact h rfl)
  | .error a, .error b =>
    if h : a = b then .isTrue (by rw [h]) else .isFalse (fun he => by cases he; exact h rfl)
  | .ok _, .error _ => .isFalse (fun h => nomatch h)
  | .error _, .ok _ => .isFalse (fun h => nomatch h)

/-- A Python dictionary as produced by the JSON decoder: association list
whose later bindings shadow earlier ones (Python keeps the last duplicate). -/
abbrev JDict := List (String × JVal)

/-- Model of Python `dict.get`: the last binding of a key wins, as in a dict
built by inserting the pairs in order. -/
def dictGet (d : JDict) (k : String) : Option JVal :=
  match d with
  | [] => none
  | (k2, v) :: rest =>
    match dictGet rest k with
    | some w => some w
    | none => if k2 = k then some v else none

/-- JSON whitespace characters skipped by the decoder. -/
def isJsonWs (c : Char) : Bool :=
  c = ' ' || c = '\t' || c = '\n' || c = '\r'

/-- Drop leading JSON whitespace. -/
def skipWsJ : List Char → List Char
  | [] => []
  | c :: cs => if isJsonWs c then skipWsJ cs else c :: cs

/-- Numeric value of a list of decimal digit characters. -/
def digitsToNat (ds : List Char) : Nat :=
  ds.foldl (fun n c => n * 10 + (c.toNat - 48)) 0

/-- Parse an optional exponent suffix and apply it to the mantissa. -/
def applyExp (q : ℚ) (cs : List Char) : Option (ℚ × List Char) :=
  match cs with
  | 'e' :: r | 'E' :: r =>
    let signAndRest : Bool × List Char :=
      match r with
      | '+' :: t => (false, t)
      | '-' :: t => (true, t)
      | _ => (false, r)
    let ds := signAndRest.2.takeWhile Char.isDigit
    let r2 := signAndRest.2.dropWhile Char.isDigit
    if ds.isEmpty then none
    else
      let e := digitsToNat ds
      some (if signAndRest.1 then q / 10 ^ e else q * 10 ^ e, r2)
  | _ => some (q, cs)

/-- Parse a JSON number (strict grammar: optional minus, no leading zeros,
optional fraction with at least one digit, optional exponent). -/
def parseJNumber (cs : List Char) : Option (ℚ × List Char) :=
  let signAndRest : Bool × List Char :=
    match cs with
    | '-' :: t => (true, t)
    | _ => (false, cs)
  let neg := signAndRest.1
  let cs1 := signAndRest.2
  let ids := cs1.takeWhile Char.isDigit
  let r1 := cs1.dropWhile Char.isDigit
  if ids.isEmpty then none
  else if ids.length > 1 && ids.head? = some '0' then none
  else
    let base : ℚ := (digitsToNat ids : ℚ)
    let cont : Option (ℚ × List Char) :=
      match r1 with
      | '.' :: r2 =>
        let fds := r2.takeWhile Char.isDigit
        let r3 := r2.dropWhile Char.isDigit
        if fds.isEmpty then none
        else applyExp (base + (digitsToNat fds : ℚ) / 10 ^ fds.length) r3
      | _ => applyExp base r1
    match cont with
    | some (q, rest) => some (if neg then -q else q, rest)
    | none => none

/-- Translate a JSON string escape character. -/
def escMap (c : Char) : Option Char :=
  if c = '"' then some '"'
  else if c = '\\' then some '\\'
  else if c = '/' then some '/'
  else if c = 'n' then some '\n'
  else if c = 't' then some '\t'
  else if c = 'r' then some '\r'
  else if c = 'b' then some '\x08'
  else if c = 'f' then some '\x0c'
  else none

/-- Parse the body of a JSON string (the input starts after the opening
quote); returns the decoded string and the input after the closing quote. -/
def parseJStringAux : List Char → List Char → Option (String × List Char)
  | _, [] => none
  | acc, c :: cs =>
    if c = '"' then some (String.mk acc.reverse, cs)
    else if c = '\\' then
      match cs with
      | [] => none
      | e :: cs2 =>
        match escMap e with
        | some ch => parseJStringAux (ch :: acc) cs2
        | none => none
    else if c.toNat < 32 then none
    else parseJStringAux (c :: acc) cs

mutual

/-- Fueled JSON value reader (model of the recursive-descent decoding done by
`json.loads`). -/
def parseValue : Nat → List Char → Option (JVal × List Char)
  | 0, _ => none
  | Nat.succ fuel, cs =>
    match skipWsJ cs with
    | [] => none
    | 't' :: r => if r.take 3 = ['r', 'u', 'e'] then some (.jbool true, r.drop 3) else none
    | 'f' :: r => if r.take 4 = ['a', 'l', 's', 'e'] then some (.jbool false, r.drop 4) else none
    | 'n' :: r => if r.take 3 = ['u', 'l', 'l'] then some (.jnull, r.drop 3) else none
    | '"' :: r =>
      match parseJStringAux [] r with
      | some (s, rest) => some (.jstr s, rest)
      | none => none
    | '[' :: r =>
      match skipWsJ r with
      | ']' :: rest => some (.jarr [], rest)
      | r2 =>
        match parseItems fuel r2 with
        | some (vs, rest) => some (.jarr vs, rest)
        | none => none
    | '\x7b' :: r =>
      match skipWsJ r with
      | '\x7d' :: rest => some (.jobj [], rest)
      | r2 =>
        match parseMembers fuel r2 with
        | some (ps, rest) => some (.jobj ps, rest)
        | none => none
    | other =>
      match parseJNumber other with
      | some (q, rest) => some (.jnum q, rest)
      | none => none

/-- Fueled reader for the comma-separated items of a non-empty JSON array. -/
def parseItems : Nat → List Char → Option (List JVal × List Char)
  | 0, _ => none
  | Nat.succ fuel, cs =>
    match parseValue fuel cs with
    | none => none
    | some (v, r1) =>
      match skipWsJ r1 with
      | ',' :: r2 =>
        match parseItems fuel r2 with
        | some (vs, rest) => some (v :: vs, rest)
        | none => none
      | ']' :: r2 => some ([v], r2)
      | _ => none

/-- Fueled reader for the members of a non-empty JSON object. -/
def parseMembers : Nat → List Char → Option (List (String × JVal) × List Char)
  | 0, _ => none
  | Nat.succ fuel, cs =>
    match skipWsJ cs with
    | '"' :: r =>
      match parseJStringAux [] r with
      | none => none
      | some (k, r1) =>
        match skipWsJ r1 with
        | ':' :: r2 =>
          match parseValue fuel r2 with
          | none => none
          | some (v, r3) =>
            match skipWsJ r3 with
            | ',' :: r4 =>
              match parseMembers fuel r4 with
              | some (ps, rest) => some ((k, v) :: ps, rest)
              | none => none
            | '\x7d' :: r4 => some ([(k, v)], r4)
            | _ => none
        | _ => none
    | _ => none

end

/-- Model of `json.loads` on a character list: decode one JSON value and
require that only whitespace remains. -/
def jsonLoadsL (cs : List Char) : Option JVal :=
  match parseValue (2 * cs.length + 2) cs with
  | some (v, rest) => if (skipWsJ rest).isEmpty then some v else none
  | none => none

/-- Python `str` whitespace, as stripped by `str.strip` and matched by the
whitespace class of the regular expressions in `parse_response`. -/
def isPySpace (c : Char) : Bool :=
  c = ' ' || c = '\t' || c = '\n' || c = '\r' || c = '\x0b' || c = '\x0c'

/-- Model of Python `str.strip`. -/
def pyStrip (cs : List Char) : List Char :=
  ((cs.dropWhile isPySpace).reverse.dropWhile isPySpace).reverse

/-- Whether `cs` begins with the characters `pre`. -/
def beginsWith (pre cs : List Char) : Bool :=
  cs.take pre.length = pre

/-- The code-fence marker checked by `parse_response`. -/
def fenceMarker : List Char := "```".toList

/-- Model of the two regex substitutions of `parse_response`, applied only
when the stripped text starts with the fence marker: remove the leading
fence (with an optional `json` tag and following whitespace), then remove a
trailing fence together with the whitespace before it. -/
def stripFenceMarks (cs : List Char) : List Char :=
  let afterTicks := cs.drop 3
  let afterTag :=
    if beginsWith "json".toList afterTicks then afterTicks.drop 4 else afterTicks
  let s1 := afterTag.dropWhile isPySpace
  if beginsWith fenceMarker s1.reverse then
    ((s1.reverse.drop 3).dropWhile isPySpace).reverse
  else s1

/-- The cleaned text that `parse_response` hands to the JSON decoder: the
input stripped of outer whitespace, with code-fence markers removed when the
text starts with one. -/
def cleanedText (text : String) : List Char :=
  let cleaned0 := pyStrip text.toList
  if beginsWith fenceMarker cleaned0 then stripFenceMarks cleaned0 else cleaned0

/-- Model of the fallback regex search `\x7b[\s\S]*\x7d`: the substring from
the first opening brace to the last closing brace, when the former strictly
precedes the latter. -/
def braceSubstring (cs : List Char) : Option (List Char) :=
  match cs.findIdx? (fun c => c = '\x7b'), cs.reverse.findIdx? (fun c => c = '\x7d') with
  | some i, some jr =>
    let j := cs.length - 1 - jr
    if i < j then some ((cs.drop i).take (j - i + 1)) else none
  | _, _ => none

/-- Embedding of `parse_response` from `app/llm_service.py`: strip fences,
try a direct decode, then decode the outermost brace-bounded substring, and
otherwise fail (a `ValueError`, or a `JSONDecodeError` propagating from the
second decode). -/
def parse_response (text : String) : Except String JVal :=
  let cleaned := cleanedText text
  match jsonLoadsL cleaned with
  | some v => .ok v
  | none =>
    match braceSubstring cleaned with
    | some sub =>
      match jsonLoadsL sub with
      | some v => .ok v
      | none => .error "JSONDecodeError"
    | none => .error "Failed to parse JSON"

/-- Risk levels from `app/models.py` (`RiskLevel`). -/
inductive RiskLevel where
  | LOW : RiskLevel
  | MEDIUM : RiskLevel
  | HIGH : RiskLevel
deriving DecidableEq

/-- Supplier record from `app/models.py` (`Supplier`); floats are modelled
as exact rationals. -/
structure Supplier where
  supplier_name : String
  annual_spend_usd : ℚ
  on_time_delivery_pct : ℚ
  contract_expiry_months : ℤ
  single_source_dependency : Bool
  region : String
deriving DecidableEq

/-- Request payload from `app/models.py` (`InsightRequest`). -/
structure InsightRequest where
  category : String
  suppliers : List Supplier
deriving DecidableEq

/-- Derived total spend (`InsightRequest.total_spend`). -/
def InsightRequest.total_spend (r : InsightRequest) : ℚ :=
  (r.suppliers.map fun s => s.annual_spend_usd).sum

/-- Output payload from `app/models.py` (`InsightResponse`). -/
structure InsightResponse where
  category : String
  overall_risk_level : RiskLevel
  key_risks : List String
  negotiation_levers : List String
  recommended_actions_next_90_days : List String
  confidence_score : ℚ
deriving DecidableEq

/-- Field constraints validated by the `Supplier` model: positive spend,
delivery percentage in `[0, 100]`, non-negative months to expiry, non-empty
bounded name and non-empty region. -/
def ValidSupplier (s : Supplier) : Prop :=
  0 < s.annual_spend_usd ∧
  0 ≤ s.on_time_delivery_pct ∧ s.on_time_delivery_pct ≤ 100 ∧
  0 ≤ s.contract_expiry_months ∧
  1 ≤ s.supplier_name.length ∧ s.supplier_name.length ≤ 200 ∧
  1 ≤ s.region.length

instance (s : Supplier) : Decidable (ValidSupplier s) := by
  unfold ValidSupplier
  infer_instance

/-- Constraints validated by the `InsightRequest` model: non-empty bounded
category and a non-empty list of valid suppliers. -/
def ValidRequest (r : InsightRequest) : Prop :=
  1 ≤ r.category.length ∧ r.category.length ≤ 100 ∧
  r.suppliers ≠ [] ∧ ∀ s ∈ r.suppliers, ValidSupplier s

instance (r : InsightRequest) : Decidable (ValidRequest r) := by
  unfold ValidRequest
  infer_instance

/-- Embedding of `Supplier.convert_decimal_to_percentage` from
`app/models.py`: a numeric delivery value in `[0, 1]` is treated as a
fraction and scaled to a percentage, any other value is passed through. -/
def convert_decimal_to_percentage (v : ℚ) : ℚ :=
  if 0 ≤ v ∧ v ≤ 1 then v * 100 else v

/-- Ingestion of the on-time-delivery field: the `mode='before'` validator
runs first, then the field constraints `ge=0, le=100` accept or reject the
converted value. -/
def ingest_on_time_delivery (v : ℚ) : Option ℚ :=
  let w := convert_decimal_to_percentage v
  if 0 ≤ w ∧ w ≤ 100 then some w else none

/-- Floor-based remainder rounding to the nearest integer, ties to even:
the rounding Python `round` and `float.__format__` perform on exact
values. -/
def pyRoundHalfEven (q : ℚ) : ℤ :=
  let f := ⌊q⌋
  let r := q - (f : ℚ)
  if r < 1 / 2 then f
  else if 1 / 2 < r then f + 1
  else if f % 2 = 0 then f else f + 1

/-- Model of Python `round(q, 2)`. -/
def pyRound2 (q : ℚ) : ℚ :=
  (pyRoundHalfEven (q * 100) : ℚ) / 100

/-- Unsigned decimal number accepted by Python `float`: digits with an
optional fractional part, at least one digit overall. -/
def parseUDecimal (cs : List Char) : Option (ℚ × List Char) :=
  let ids := cs.takeWhile Char.isDigit
  let r1 := cs.dropWhile Char.isDigit
  match r1 with
  | '.' :: r2 =>
    let fds := r2.takeWhile Char.isDigit
    let r3 := r2.dropWhile Char.isDigit
    if ids.isEmpty && fds.isEmpty then none
    else some ((digitsToNat ids : ℚ) + (digitsToNat fds : ℚ) / 10 ^ fds.length, r3)
  | _ => if ids.isEmpty then none else some ((digitsToNat ids : ℚ), r1)

/-- Model of Python `float` applied to a string (finite decimal literals
with optional sign and exponent; the special values are not modelled). -/
def pyFloatOfString (s : String) : Option ℚ :=
  let cs := pyStrip s.toList
  let signAndRest : Bool × List Char :=
    match cs with
    | '-' :: t => (true, t)
    | '+' :: t => (false, t)
    | _ => (false, cs)
  match parseUDecimal signAndRest.2 with
  | none => none
  | some (q, r1) =>
    match applyExp q r1 with
    | some (q2, r2) => if r2.isEmpty then some (if signAndRest.1 then -q2 else q2) else none
    | none => none

/-- Model of Python `float` applied to a decoded JSON value: numbers pass
through, booleans coerce, numeric strings are parsed, anything else raises. -/
def pyFloat : JVal → Except String ℚ
  | .jnum q => .ok q
  | .jbool b => .ok (if b then 1 else 0)
  | .jstr s =>
    match pyFloatOfString s with
    | some q => .ok q
    | none => .error "ValueError: could not convert string to float"
  | _ => .error "TypeError: float() argument"

/-- ASCII lowercasing, model of `str.lower` on the ASCII fragment. -/
def lowerStr (s : String) : String :=
  String.mk (s.data.map Char.toLower)

/-- The `risk_map` dictionary lookup with default `Medium` from
`validate_response`. -/
def risk_map_lookup (s : String) : RiskLevel :=
  if s = "low" then .LOW
  else if s = "medium" then .MEDIUM
  else if s = "high" then .HIGH
  else .MEDIUM

/-- The risk-level extraction of `validate_response`:
`data.get("overall_risk_level", "Medium").lower()` then the map lookup; a
present non-string value raises (`AttributeError` on `.lower`). -/
def extractRiskLevel (d : JDict) : Except String RiskLevel :=
  match (dictGet d "overall_risk_level").getD (.jstr "Medium") with
  | .jstr s => .ok (risk_map_lookup (lowerStr s))
  | _ => .error "AttributeError: lower"

/-- The confidence extraction of `validate_response`:
`max(0.0, min(1.0, float(data.get("confidence_score", 0.7))))`. -/
def extractConfidence (d : JDict) : Except String ℚ :=
  match pyFloat ((dictGet d "confidence_score").getD (.jnum 0.7)) with
  | .error e => .error e
  | .ok c => .ok (max 0 (min 1 c))

/-- Element conversion enforced by the `List[str]` output fields: non-string
entries are rejected by the model validation. -/
def asString : JVal → Except String String
  | .jstr s => .ok s
  | _ => .error "ValidationError: str expected"

/-- Elementwise string conversion of a sliced list, as the `List[str]`
field validation performs it. -/
def asStringList : List JVal → Except String (List String)
  | [] => .ok []
  | x :: xs =>
    match asString x with
    | .error e => .error e
    | .ok s =>
      match asStringList xs with
      | .error e => .error e
      | .ok ss => .ok (s :: ss)

/-- The list-field extraction of `validate_response`:
`data.get(key, [default])[:10]`, whose entries must be strings; a present
non-list value fails (unsliceable values raise, and a string slice is
rejected by the `List[str]` field validation). -/
def extractListField (d : JDict) (key deflt : String) : Except String (List String) :=
  match dictGet d key with
  | none => .ok [deflt]
  | some (.jarr xs) => asStringList (xs.take 10)
  | some _ => .error "TypeError: unsliceable or non-list"

/-- Whether a decoded value is a string. -/
def isStrVal : JVal → Bool
  | .jstr _ => true
  | _ => false

/-- Whether a decoded value is coercible to a float. -/
def coercibleB (v : JVal) : Bool :=
  match pyFloat v with
  | .ok _ => true
  | .error _ => false

/-- Whether a decoded value is a non-empty list whose first ten entries are
strings. -/
def isGoodListVal : JVal → Bool
  | .jarr xs => (!xs.isEmpty) && (xs.take 10).all isStrVal
  | _ => false

/-- A predicate holding for an absent optional value. -/
def optHolds (p : JVal → Bool) : Option JVal → Bool
  | none => true
  | some v => p v

/-- Well-shapedness of a parsed object for the normalizer: every present
field among the ones it reads has the shape the output contract needs. -/
def WellShapedB (d : JDict) : Bool :=
  optHolds isStrVal (dictGet d "overall_risk_level") &&
  optHolds coercibleB (dictGet d "confidence_score") &&
  optHolds isGoodListVal (dictGet d "key_risks") &&
  optHolds isGoodListVal (dictGet d "negotiation_levers") &&
  optHolds isGoodListVal (dictGet d "recommended_actions_next_90_days")

/-- Construction of an `InsightResponse`, with the pydantic field
constraints: each list has between 1 and 10 entries and the confidence lies
in `[0, 1]`. -/
def mkInsightResponse (cat : String) (lvl : RiskLevel) (kr nl ra : List String)
    (cs : ℚ) : Except String InsightResponse :=
  if 1 ≤ kr.length ∧ kr.length ≤ 10 ∧ 1 ≤ nl.length ∧ nl.length ≤ 10 ∧
      1 ≤ ra.length ∧ ra.length ≤ 10 ∧ 0 ≤ cs ∧ cs ≤ 1 then
    .ok ⟨cat, lvl, kr, nl, ra, cs⟩
  else .error "ValidationError"

/-- Embedding of `validate_response` from `app/llm_service.py`. -/
def validate_response (d : JDict) (req : InsightRequest) : Except String InsightResponse :=
  match extractRiskLevel d with
  | .error e => .error e
  | .ok lvl =>
    match extractConfidence d with
    | .error e => .error e
    | .ok conf =>
      match extractListField d "key_risks" "No risks identified" with
      | .error e => .error e
      | .ok kr =>
        match extractListField d "negotiation_levers" "Review contracts" with
        | .error e => .error e
        | .ok nl =>
          match extractListField d "recommended_actions_next_90_days" "Conduct review" with
          | .error e => .error e
          | .ok ra => mkInsightResponse req.category lvl kr nl ra (pyRound2 conf)

/-- `validate_response` applied to an arbitrary decoded value: only a
dictionary supports the `.get` calls, anything else raises. -/
def validateParsed (v : JVal) (req : InsightRequest) : Except String InsightResponse :=
  match v with
  | .jobj d => validate_response d req
  | _ => .error "AttributeError: get"

/-- Embedding of `GroqService.generate_insights` from `app/llm_service.py`.
The argument `raw` is the outcome of `_call_api`: the raw text of the chat
completion, or the upstream error it raised. After normalization the
confidence bonus is applied: `min(0.95, confidence + 0.2)`. -/
def GroqService.generate_insights (raw : Except String String) (req : InsightRequest) :
    Except String InsightResponse :=
  match raw with
  | .error e => .error e
  | .ok text =>
    match parse_response text with
    | .error e => .error e
    | .ok data =>
      match validateParsed data req with
      | .error e => .error e
      | .ok resp => .ok { resp with confidence_score := min 0.95 (resp.confidence_score + 0.2) }

/-- Spend-share percentage `pct` computed per supplier by the fallback
generator. -/
def spendSharePct (s : Supplier) (total : ℚ) : ℚ :=
  s.annual_spend_usd / total * 100

/-- Format an exact value the way `f"...:.0f"` renders it. -/
def fmt0 (q : ℚ) : String :=
  toString (pyRoundHalfEven q)

/-- Format an exact value the way `f"...:.1f"` renders it. -/
def fmt1 (q : ℚ) : String :=
  let n := pyRoundHalfEven (q * 10)
  let a := n.natAbs
  (if n < 0 then "-" else "") ++ (toString (a / 10) ++ ("." ++ toString (a % 10)))

/-- The single-source risk statement of the fallback generator. -/
def fmtSingleSource (s : Supplier) (total : ℚ) : String :=
  "Single-source: " ++
    (s.supplier_name ++
      (" ($" ++ (fmt1 (s.annual_spend_usd / 1000000) ++
        ("M, " ++ (fmt0 (spendSharePct s total) ++ "%)")))))

/-- The urgent-expiry risk statement of the fallback generator. -/
def fmtUrgent (s : Supplier) : String :=
  "Urgent: " ++ (s.supplier_name ++ (" expires in " ++
    (toString s.contract_expiry_months ++ " months")))

/-- The urgent renewal action of the fallback generator. -/
def fmtRenew (s : Supplier) : String :=
  "Renew contract with " ++ s.supplier_name

/-- The renewal-talks action of the fallback generator. -/
def fmtTalks (s : Supplier) : String :=
  "Start renewal talks with " ++ s.supplier_name

/-- The low-delivery risk statement of the fallback generator. -/
def fmtLowDelivery (s : Supplier) : String :=
  "Low delivery: " ++ (s.supplier_name ++ (" at " ++ (fmt0 s.on_time_delivery_pct ++ "%")))

/-- The top-performer leverage statement of the fallback generator. -/
def fmtTopPerformer (s : Supplier) : String :=
  "Top performer: " ++ (s.supplier_name ++ (" (" ++ (fmt0 s.on_time_delivery_pct ++ "%)")))

/-- The volume-leverage statement of the fallback generator. -/
def fmtVolume (s : Supplier) (pct : ℚ) : String :=
  "Volume leverage: " ++ (s.supplier_name ++ (" (" ++ (fmt0 pct ++ "% spend)")))

/-- Risk entries appended for one supplier by the fallback loop, in source
order: single-source, urgent expiry, low delivery. -/
def supplierRisks (total : ℚ) (s : Supplier) : List String :=
  (if s.single_source_dependency then [fmtSingleSource s total] else []) ++
    ((if s.contract_expiry_months ≤ 3 then [fmtUrgent s] else []) ++
      (if s.on_time_delivery_pct < 85 then [fmtLowDelivery s] else []))

/-- Action entries appended for one supplier by the fallback loop. -/
def supplierActions (s : Supplier) : List String :=
  if s.contract_expiry_months ≤ 3 then [fmtRenew s]
  else if s.contract_expiry_months ≤ 6 then [fmtTalks s]
  else []

/-- Leverage entries appended for one supplier by the fallback loop. -/
def supplierLevers (total : ℚ) (s : Supplier) : List String :=
  (if 95 ≤ s.on_time_delivery_pct then [fmtTopPerformer s] else []) ++
    (if 30 ≤ spendSharePct s total then [fmtVolume s (spendSharePct s total)] else [])

/-- All risk entries collected over the suppliers in iteration order. -/
def collectRisks (req : InsightRequest) : List String :=
  req.suppliers.flatMap (supplierRisks req.total_spend)

/-- All action entries collected over the suppliers in iteration order. -/
def collectActions (req : InsightRequest) : List String :=
  req.suppliers.flatMap supplierActions

/-- All leverage entries collected over the suppliers in iteration order. -/
def collectLevers (req : InsightRequest) : List String :=
  req.suppliers.flatMap (supplierLevers req.total_spend)

/-- The `high_risk` flag of the fallback generator. -/
def highRiskB (req : InsightRequest) : Bool :=
  (req.suppliers.any fun s =>
    s.single_source_dependency && decide (s.annual_spend_usd / req.total_spend > 0.4)) ||
  (req.suppliers.any fun s => decide (s.contract_expiry_months ≤ 3)) ||
  (req.suppliers.any fun s => decide (s.on_time_delivery_pct < 80))

/-- The `med_risk` flag of the fallback generator. -/
def medRiskB (req : InsightRequest) : Bool :=
  (req.suppliers.any fun s => decide (s.contract_expiry_months ≤ 6)) ||
  (req.suppliers.any fun s => decide (s.on_time_delivery_pct < 90))

/-- Model of the Python truthiness fallback `xs or dflt` on lists. -/
def pyOrList (xs dflt : List String) : List String :=
  if xs.isEmpty then dflt else xs

/-- Embedding of `FallbackInsightGenerator.generate` from
`app/llm_service.py`. -/
def FallbackInsightGenerator.generate (req : InsightRequest) : InsightResponse where
  category := req.category
  overall_risk_level :=
    if highRiskB req then .HIGH else if medRiskB req then .MEDIUM else .LOW
  key_risks := pyOrList ((collectRisks req).take 5) ["No critical risks identified"]
  negotiation_levers := pyOrList ((collectLevers req).take 5) ["Review contracts for opportunities"]
  recommended_actions_next_90_days :=
    pyOrList ((collectActions req).take 5) ["Quarterly supplier review"]
  confidence_score := 0.65

/-- Embedding of the `/generate-insights` handler from `app/main.py`: `llm`
is the configured external client together with the outcome of its upstream
call (`none` when no client is configured); any exception from the external
path is caught and superseded by the fallback generator. -/
def generate_insights (llm : Option (Except String String)) (req : InsightRequest) :
    InsightResponse :=
  match llm with
  | none => FallbackInsightGenerator.generate req
  | some raw =>
    match GroqService.generate_insights raw req with
    | .ok r => r
    | .error _ => FallbackInsightGenerator.generate req

/-- A default supplier record, used only to state index-wise agreement of
two supplier lists via `List.getD`. -/
def defaultSupplier : Supplier :=
  ⟨"-", 1, 0, 0, false, "-"⟩

/-- Concrete supplier whose contract expires in two months (a High
trigger). -/
def supExp2 : Supplier :=
  ⟨"AlphaParts", 100000, 96, 2, false, "NA"⟩

/-- Concrete supplier with delivery at 88 percent (a Medium trigger only). -/
def supDel88 : Supplier :=
  ⟨"BetaWorks", 300000, 88, 12, false, "EU"⟩

/-- Concrete request with one High-triggering and one Medium-triggering
supplier. -/
def reqPriority : InsightRequest :=
  ⟨"Logistics", [supExp2, supDel88]⟩

/-- Concrete request used to exercise the fallback path. -/
def reqFall : InsightRequest :=
  ⟨"Chemicals", [⟨"Gamma", 50000, 97, 10, false, "EU"⟩]⟩

/-- Concrete request used to exercise the list-shape guarantees of the
fallback output. -/
def reqShape : InsightRequest :=
  ⟨"IT Hardware", [⟨"Acme", 4200000, 92, 6, true, "EU"⟩]⟩

/-- Concrete request used to exercise the external-path confidence bonus. -/
def reqConf : InsightRequest :=
  ⟨"Metals", [⟨"Delta", 80000, 99, 9, false, "NA"⟩]⟩

/-- Concrete request whose fallback level is High. -/
def reqHigh : InsightRequest :=
  ⟨"Electronics", [supExp2]⟩

/-- First of two requests that agree on the risk-relevant data but differ in
category, names and regions. -/
def reqNoninterA : InsightRequest :=
  ⟨"Raw Materials", [⟨"S1", 100000, 92, 8, true, "EU"⟩, ⟨"S2", 300000, 85, 12, false, "NA"⟩]⟩

/-- Second of the two requests: doubled spends (equal ratios), other
risk-relevant fields identical, labels different. -/
def reqNoninterB : InsightRequest :=
  ⟨"Packaging", [⟨"T1", 200000, 92, 8, true, "APAC"⟩, ⟨"T2", 600000, 85, 12, false, "SA"⟩]⟩

/-- Parsed object whose risk-level field is present but not a string. -/
def dBadLevel : JDict :=
  [("overall_risk_level", JVal.jnum 5)]

/-- Parsed object whose key-risks field is present but an empty list. -/
def dEmptyList : JDict :=
  [("key_risks", JVal.jarr [])]

/-- Well-shaped parsed object with a present list field and an out-of-range
confidence. -/
def dWellA : JDict :=
  [("key_risks", JVal.jarr [JVal.jstr "risk A"]), ("confidence_score", JVal.jnum 2)]

/-- Well-shaped parsed object exercising the field mappings of the
normalizer. -/
def dWellB : JDict :=
  [("overall_risk_level", JVal.jstr "HIGH"), ("confidence_score", JVal.jnum 0.834),
    ("negotiation_levers", JVal.jarr [JVal.jstr "L1", JVal.jstr "L2"])]

/-- The normalized result for `dWellB` and `reqConf`. -/
def rWellB : InsightResponse :=
  ⟨"Metals", RiskLevel.HIGH, ["No risks identified"], ["L1", "L2"], ["Conduct review"], 0.83⟩

/-- Raw external output carrying only a confidence of one half. -/
def rawConf : Except String String :=
  .ok "\x7b\"confidence_score\": 0.5\x7d"

/-- The external-path result for `rawConf` and `reqConf`: defaults, with the
adjusted confidence 0.5 + 0.2. -/
def rConfBonus : InsightResponse :=
  ⟨"Metals", RiskLevel.MEDIUM, ["No risks identified"], ["Review contracts"],
    ["Conduct review"], 0.7⟩

/-- Decomposition of a successful ingestion: the stored value is the
converted value and it satisfies the range constraint. -/
theorem ingest_eq_some (v w : ℚ) (h : ingest_on_time_delivery v = some w) :
    convert_decimal_to_percentage v = w ∧ 0 ≤ w ∧ w ≤ 100 := by
  unfold ingest_on_time_delivery at h
  by_cases hc : 0 ≤ convert_decimal_to_percentage v ∧ convert_decimal_to_percentage v ≤ 100
  · simp only [hc, if_pos, and_self] at h
    exact ⟨Option.some.inj h, Option.some.inj h ▸ hc⟩
  · simp only [hc, if_neg, if_false] at h
    exact absurd h (by simp)

/-- Claim C4: for every numeric on-time-delivery input `v`, the stored value
is `v * 100` when `0 ≤ v ≤ 1` and `v` otherwise, and re-ingesting an
already-normalized stored value greater than 1 yields it unchanged. -/
theorem delivery_normalization_spec (v w : ℚ)
    (h : ingest_on_time_delivery v = some w) :
    w = (if 0 ≤ v ∧ v ≤ 1 then v * 100 else v) ∧
      (1 < w → ingest_on_time_delivery w = some w) := by
  obtain ⟨hconv, hw0, hw100⟩ := ingest_eq_some v w h
  constructor
  · rw [← hconv]
    rfl
  · intro h1
    have hcw : convert_decimal_to_percentage w = w := by
      unfold convert_decimal_to_percentage
      rw [if_neg]
      rintro ⟨-, hle⟩
      exact absurd h1 (not_lt.mpr hle)
    unfold ingest_on_time_delivery
    rw [hcw, if_pos ⟨hw0, hw100⟩]

/-- Witness for C4: ingesting the already-normalized value 92 stores 92, and
re-ingesting the stored 92 yields 92 again rather than 9200. -/
theorem delivery_normalization_spec_witness :
    (92 : ℚ) = (if 0 ≤ (92 : ℚ) ∧ (92 : ℚ) ≤ 1 then 92 * 100 else (92 : ℚ)) ∧
      ((1 : ℚ) < 92 → ingest_on_time_delivery 92 = some 92) :=
  delivery_normalization_spec 92 92 (by with_unfolding_all rfl)

/-- A spend share above forty percent is the same condition as a spend ratio
above `0.4`. -/
theorem share_gt_iff (q : ℚ) : q * 100 > 40 ↔ q > 0.4 := by
  constructor <;> intro h <;> nlinarith [h]

/-- The `high_risk` flag holds exactly when some supplier triggers a High
condition, stated with the spec's spend-share percentage. -/
theorem highRiskB_iff (req : InsightRequest) :
    highRiskB req = true ↔
      ∃ s ∈ req.suppliers,
        (s.single_source_dependency = true ∧ spendSharePct s req.total_spend > 40) ∨
          s.contract_expiry_months ≤ 3 ∨ s.on_time_delivery_pct < 80 := by
  unfold highRiskB
  simp only [Bool.or_eq_true, List.any_eq_true, Bool.and_eq_true, decide_eq_true_eq]
  unfold spendSharePct
  constructor
  · rintro ((⟨s, hs, hss, hr⟩ | ⟨s, hs, h3⟩) | ⟨s, hs, h80⟩)
    · exact ⟨s, hs, Or.inl ⟨hss, (share_gt_iff _).mpr hr⟩⟩
    · exact ⟨s, hs, Or.inr (Or.inl h3)⟩
    · exact ⟨s, hs, Or.inr (Or.inr h80)⟩
  · rintro ⟨s, hs, ⟨hss, hr⟩ | h3 | h80⟩
    · exact Or.inl (Or.inl ⟨s, hs, hss, (share_gt_iff _).mp hr⟩)
    · exact Or.inl (Or.inr ⟨s, hs, h3⟩)
    · exact Or.inr ⟨s, hs, h80⟩

/-- The `med_risk` flag holds exactly when some supplier triggers a Medium
condition. -/
theorem medRiskB_iff (req : InsightRequest) :
    medRiskB req = true ↔
      ∃ s ∈ req.suppliers,
        s.contract_expiry_months ≤ 6 ∨ s.on_time_delivery_pct < 90 := by
  unfold medRiskB
  simp only [Bool.or_eq_true, List.any_eq_true, decide_eq_true_eq]
  constructor
  · rintro (⟨s, hs, h6⟩ | ⟨s, hs, h90⟩)
    · exact ⟨s, hs, Or.inl h6⟩
    · exact ⟨s, hs, Or.inr h90⟩
  · rintro ⟨s, hs, h6 | h90⟩
    · exact Or.inl ⟨s, hs, h6⟩
    · exact Or.inr ⟨s, hs, h90⟩

/-- Claim C1: the fallback rule engine assigns the overall risk level by
priority with first match winning: High exactly when some supplier satisfies
(single-source and spend-share above 40 percent) or months-to-expiry at most
3 or delivery below 80 percent; otherwise Medium exactly when some supplier
satisfies months-to-expiry at most 6 or delivery below 90 percent; otherwise
Low. -/
theorem fallback_risk_level_priority (req : InsightRequest) (_hv : ValidRequest req) :
    ((FallbackInsightGenerator.generate req).overall_risk_level = RiskLevel.HIGH ↔
      ∃ s ∈ req.suppliers,
        (s.single_source_dependency = true ∧ spendSharePct s req.total_spend > 40) ∨
          s.contract_expiry_months ≤ 3 ∨ s.on_time_delivery_pct < 80) ∧
    ((FallbackInsightGenerator.generate req).overall_risk_level = RiskLevel.MEDIUM ↔
      ¬(∃ s ∈ req.suppliers,
        (s.single_source_dependency = true ∧ spendSharePct s req.total_spend > 40) ∨
          s.contract_expiry_months ≤ 3 ∨ s.on_time_delivery_pct < 80) ∧
      ∃ s ∈ req.suppliers,
        s.contract_expiry_months ≤ 6 ∨ s.on_time_delivery_pct < 90) ∧
    ((FallbackInsightGenerator.generate req).overall_risk_level = RiskLevel.LOW ↔
      ¬(∃ s ∈ req.suppliers,
        (s.single_source_dependency = true ∧ spendSharePct s req.total_spend > 40) ∨
          s.contract_expiry_months ≤ 3 ∨ s.on_time_delivery_pct < 80) ∧
      ¬(∃ s ∈ req.suppliers,
        s.contract_expiry_months ≤ 6 ∨ s.on_time_delivery_pct < 90)) := by
  simp only [← highRiskB_iff, ← medRiskB_iff]
  cases hHB : highRiskB req <;> cases hMB : medRiskB req <;>
    simp [FallbackInsightGenerator.generate, hHB, hMB]

/-- Witness for C1: on a valid request with one supplier expiring in two
months next to a Medium-triggering supplier, the theorem yields a supplier
triggering a High condition from the evaluated High level. -/
theorem fallback_risk_level_priority_witness :
    ∃ s ∈ reqPriority.suppliers,
      (s.single_source_dependency = true ∧ spendSharePct s reqPriority.total_spend > 40) ∨
        s.contract_expiry_months ≤ 3 ∨ s.on_time_delivery_pct < 80 :=
  (fallback_risk_level_priority reqPriority (by decide)).1.mp (by with_unfolding_all rfl)

/-- Two lists of equal length on which two predicates agree index-wise have
equal `any` results. -/
theorem any_congr_getD {α β : Type} (d1 : α) (d2 : β) (p : α → Bool) (q : β → Bool) :
    ∀ (l1 : List α) (l2 : List β), l1.length = l2.length →
      (∀ i, i < l1.length → p (l1.getD i d1) = q (l2.getD i d2)) →
      l1.any p = l2.any q := by
  intro l1
  induction l1 with
  | nil =>
    intro l2 hlen _
    cases l2 with
    | nil => rfl
    | cons b t2 => simp at hlen
  | cons a t ih =>
    intro l2 hlen h
    cases l2 with
    | nil => simp at hlen
    | cons b t2 =>
      have h0 : p a = q b := by
        have := h 0 (by simp)
        simpa using this
      have ht : t.any p = t2.any q := by
        refine ih t2 (by simpa using hlen) ?_
        intro i hi
        have := h (i + 1) (by simpa using Nat.succ_lt_succ hi)
        simpa using this
      simp [List.any_cons, h0, ht]

/-- Claim C9: the fallback risk level depends only on the single-source
flags, months-to-expiry, delivery percentages and spend ratios of the
suppliers, position by position; categories, names and regions do not
influence it. -/
theorem fallback_level_noninterference (r1 r2 : InsightRequest)
    (hlen : r1.suppliers.length = r2.suppliers.length)
    (hagree : ∀ i, i < r1.suppliers.length →
      (r1.suppliers.getD i defaultSupplier).single_source_dependency =
          (r2.suppliers.getD i defaultSupplier).single_source_dependency ∧
        (r1.suppliers.getD i defaultSupplier).contract_expiry_months =
          (r2.suppliers.getD i defaultSupplier).contract_expiry_months ∧
        (r1.suppliers.getD i defaultSupplier).on_time_delivery_pct =
          (r2.suppliers.getD i defaultSupplier).on_time_delivery_pct ∧
        (r1.suppliers.getD i defaultSupplier).annual_spend_usd / r1.total_spend =
          (r2.suppliers.getD i defaultSupplier).annual_spend_usd / r2.total_spend)
    (_hv1 : ValidRequest r1) (_hv2 : ValidRequest r2) :
    (FallbackInsightGenerator.generate r1).overall_risk_level =
      (FallbackInsightGenerator.generate r2).overall_risk_level := by
  have h1 := any_congr_getD defaultSupplier defaultSupplier
    (fun s => s.single_source_dependency && decide (s.annual_spend_usd / r1.total_spend > 0.4))
    (fun s => s.single_source_dependency && decide (s.annual_spend_usd / r2.total_spend > 0.4))
    r1.suppliers r2.suppliers hlen
    (fun i hi => by
      obtain ⟨hS, -, -, hR⟩ := hagree i hi
      simp only [hS, hR])
  have h2 := any_congr_getD defaultSupplier defaultSupplier
    (fun s => decide (s.contract_expiry_months ≤ 3))
    (fun s => decide (s.contract_expiry_months ≤ 3))
    r1.suppliers r2.suppliers hlen
    (fun i hi => by
      obtain ⟨-, hE, -, -⟩ := hagree i hi
      simp only [hE])
  have h3 := any_congr_getD defaultSupplier defaultSupplier
    (fun s => decide (s.on_time_delivery_pct < 80))
    (fun s => decide (s.on_time_delivery_pct < 80))
    r1.suppliers r2.suppliers hlen
    (fun i hi => by
      obtain ⟨-, -, hD, -⟩ := hagree i hi
      simp only [hD])
  have h4 := any_congr_getD defaultSupplier defaultSupplier
    (fun s => decide (s.contract_expiry_months ≤ 6))
    (fun s => decide (s.contract_expiry_months ≤ 6))
    r1.suppliers r2.suppliers hlen
    (fun i hi => by
      obtain ⟨-, hE, -, -⟩ := hagree i hi
      simp only [hE])
  have h5 := any_congr_getD defaultSupplier defaultSupplier
    (fun s => decide (s.on_time_delivery_pct < 90))
    (fun s => decide (s.on_time_delivery_pct < 90))
    r1.suppliers r2.suppliers hlen
    (fun i hi => by
      obtain ⟨-, -, hD, -⟩ := hagree i hi
      simp only [hD])
  have hH : highRiskB r1 = highRiskB r2 := by
    unfold highRiskB
    rw [h1, h2, h3]
  have hM : medRiskB r1 = medRiskB r2 := by
    unfold medRiskB
    rw [h4, h5]
  simp [FallbackInsightGenerator.generate, hH, hM]

/-- Witness for C9: two concrete requests with different category, supplier
names and regions but identical risk-relevant data (spends doubled, hence
equal ratios) receive the same fallback risk level. -/
theorem fallback_level_noninterference_witness :
    (FallbackInsightGenerator.generate reqNoninterA).overall_risk_level =
      (FallbackInsightGenerator.generate reqNoninterB).overall_risk_level :=
  fallback_level_noninterference reqNoninterA reqNoninterB
    (by with_unfolding_all rfl)
    (by with_unfolding_all decide)
    (by with_unfolding_all decide)
    (by with_unfolding_all decide)

/-- Truncating to five entries and falling back to a one-element default
yields the default exactly for an empty collection, and always between one
and five entries. -/
theorem pyOrList_take5 (l : List String) (d : String) :
    pyOrList (l.take 5) [d] = (if l = [] then [d] else l.take 5) ∧
      1 ≤ (pyOrList (l.take 5) [d]).length ∧ (pyOrList (l.take 5) [d]).length ≤ 5 := by
  have hmain : pyOrList (l.take 5) [d] = (if l = [] then [d] else l.take 5) := by
    unfold pyOrList
    rcases eq_or_ne l [] with h | h
    · subst h
      simp
    · simp [List.isEmpty_iff, List.take_eq_nil_iff, h]
  refine ⟨hmain, ?_, ?_⟩ <;> rw [hmain]
  · rcases eq_or_ne l [] with h | h
    · simp [h]
    · rw [if_neg h]
      have : l.length ≠ 0 := fun h0 => h (List.length_eq_zero.mp h0)
      simp [List.length_take]
      omega
  · rcases eq_or_ne l [] with h | h
    · simp [h]
    · rw [if_neg h]
      simp [List.length_take]

/-- Claim C6: the fallback result's three list fields are the first five
entries collected in supplier iteration order, with a fixed default
statement substituted for a list that would be empty, so each has between
one and five entries; the confidence score is exactly 0.65. -/
theorem fallback_output_shape (req : InsightRequest) (_hv : ValidRequest req) :
    ((FallbackInsightGenerator.generate req).key_risks =
        if collectRisks req = [] then ["No critical risks identified"]
        else (collectRisks req).take 5) ∧
      ((FallbackInsightGenerator.generate req).negotiation_levers =
        if collectLevers req = [] then ["Review contracts for opportunities"]
        else (collectLevers req).take 5) ∧
      ((FallbackInsightGenerator.generate req).recommended_actions_next_90_days =
        if collectActions req = [] then ["Quarterly supplier review"]
        else (collectActions req).take 5) ∧
      1 ≤ (FallbackInsightGenerator.generate req).key_risks.length ∧
      (FallbackInsightGenerator.generate req).key_risks.length ≤ 5 ∧
      1 ≤ (FallbackInsightGenerator.generate req).negotiation_levers.length ∧
      (FallbackInsightGenerator.generate req).negotiation_levers.length ≤ 5 ∧
      1 ≤ (FallbackInsightGenerator.generate req).recommended_actions_next_90_days.length ∧
      (FallbackInsightGenerator.generate req).recommended_actions_next_90_days.length ≤ 5 ∧
      (FallbackInsightGenerator.generate req).confidence_score = 0.65 := by
  obtain ⟨hr1, hr2, hr3⟩ := pyOrList_take5 (collectRisks req) "No critical risks identified"
  obtain ⟨hl1, hl2, hl3⟩ := pyOrList_take5 (collectLevers req) "Review contracts for opportunities"
  obtain ⟨ha1, ha2, ha3⟩ := pyOrList_take5 (collectActions req) "Quarterly supplier review"
  exact ⟨hr1, hl1, ha1, hr2, hr3, hl2, hl3, ha2, ha3, rfl⟩

/-- Witness for C6: on a concrete single-supplier valid request the fallback
output has the asserted shape. -/
theorem fallback_output_shape_witness :
    ((FallbackInsightGenerator.generate reqShape).key_risks =
        if collectRisks reqShape = [] then ["No critical risks identified"]
        else (collectRisks reqShape).take 5) ∧
      ((FallbackInsightGenerator.generate reqShape).negotiation_levers =
        if collectLevers reqShape = [] then ["Review contracts for opportunities"]
        else (collectLevers reqShape).take 5) ∧
      ((FallbackInsightGenerator.generate reqShape).recommended_actions_next_90_days =
        if collectActions reqShape = [] then ["Quarterly supplier review"]
        else (collectActions reqShape).take 5) ∧
      1 ≤ (FallbackInsightGenerator.generate reqShape).key_risks.length ∧
      (FallbackInsightGenerator.generate reqShape).key_risks.length ≤ 5 ∧
      1 ≤ (FallbackInsightGenerator.generate reqShape).negotiation_levers.length ∧
      (FallbackInsightGenerator.generate reqShape).negotiation_levers.length ≤ 5 ∧
      1 ≤ (FallbackInsightGenerator.generate reqShape).recommended_actions_next_90_days.length ∧
      (FallbackInsightGenerator.generate reqShape).recommended_actions_next_90_days.length ≤ 5 ∧
      (FallbackInsightGenerator.generate reqShape).confidence_score = 0.65 :=
  fallback_output_shape reqShape (by decide)

/-- A string extended on the right cannot equal a target whose matching
head differs. -/
theorem append_ne_of_head (p r t : String) (h : t.data.take p.data.length ≠ p.data) :
    p ++ r ≠ t := by
  intro he
  apply h
  have hd : (p ++ r).data = t.data := congrArg String.data he
  have hpr : (p ++ r).data = p.data ++ r.data := rfl
  rw [← hd, hpr, List.take_left]

/-- Every risk entry emitted for a supplier starts with one of the three
risk labels. -/
theorem mem_supplierRisks (total : ℚ) (s : Supplier) (x : String)
    (hx : x ∈ supplierRisks total s) :
    (∃ r, x = "Single-source: " ++ r) ∨ (∃ r, x = "Urgent: " ++ r) ∨
      (∃ r, x = "Low delivery: " ++ r) := by
  unfold supplierRisks at hx
  simp only [List.mem_append] at hx
  rcases hx with h | h | h
  · split_ifs at h
    · rw [List.mem_singleton] at h
      exact Or.inl ⟨_, by rw [h]; rfl⟩
    · simp at h
  · split_ifs at h
    · rw [List.mem_singleton] at h
      exact Or.inr (Or.inl ⟨_, by rw [h]; rfl⟩)
    · simp at h
  · split_ifs at h
    · rw [List.mem_singleton] at h
      exact Or.inr (Or.inr ⟨_, by rw [h]; rfl⟩)
    · simp at h

/-- No emitted risk entry is the default placeholder statement. -/
theorem risk_entry_ne_default (x : String)
    (h : (∃ r, x = "Single-source: " ++ r) ∨ (∃ r, x = "Urgent: " ++ r) ∨
      (∃ r, x = "Low delivery: " ++ r)) :
    x ≠ "No critical risks identified" := by
  rcases h with ⟨r, rfl⟩ | ⟨r, rfl⟩ | ⟨r, rfl⟩ <;>
    exact append_ne_of_head _ _ _ (by decide)

/-- A supplier that triggers a High condition emits at least one risk
entry. -/
theorem supplierRisks_ne_nil (total : ℚ) (s : Supplier)
    (h : s.single_source_dependency = true ∨ s.contract_expiry_months ≤ 3 ∨
      s.on_time_delivery_pct < 85) :
    supplierRisks total s ≠ [] := by
  unfold supplierRisks
  intro heq
  rw [List.append_eq_nil, List.append_eq_nil] at heq
  obtain ⟨h1, h2, h3⟩ := heq
  rcases h with hs | h3m | h85
  · rw [if_pos hs] at h1
    simp at h1
  · rw [if_pos h3m] at h2
    simp at h2
  · rw [if_pos h85] at h3
    simp at h3

/-- Claim C10: whenever the fallback level is High, the key-risks list is
the truncation of a non-empty supplier-derived collection and is never the
default placeholder list. -/
theorem fallback_high_key_risks (req : InsightRequest) (_hv : ValidRequest req)
    (hH : (FallbackInsightGenerator.generate req).overall_risk_level = RiskLevel.HIGH) :
    collectRisks req ≠ [] ∧
      (FallbackInsightGenerator.generate req).key_risks = (collectRisks req).take 5 ∧
      (FallbackInsightGenerator.generate req).key_risks ≠ ["No critical risks identified"] := by
  have hHB : highRiskB req = true := by
    cases hb : highRiskB req
    · exfalso
      cases hm : medRiskB req <;> simp [FallbackInsightGenerator.generate, hb, hm] at hH
    · rfl
  obtain ⟨s, hs, hcond⟩ := (highRiskB_iff req).mp hHB
  have hne : supplierRisks req.total_spend s ≠ [] := by
    refine supplierRisks_ne_nil _ s ?_
    rcases hcond with ⟨hss, -⟩ | h3 | h80
    · exact Or.inl hss
    · exact Or.inr (Or.inl h3)
    · exact Or.inr (Or.inr (lt_trans h80 (by norm_num)))
  have hcoll : collectRisks req ≠ [] := by
    intro h0
    exact hne (List.flatMap_eq_nil_iff.mp h0 s hs)
  have hkr : (FallbackInsightGenerator.generate req).key_risks = (collectRisks req).take 5 := by
    have h1 := (pyOrList_take5 (collectRisks req) "No critical risks identified").1
    show pyOrList ((collectRisks req).take 5) ["No critical risks identified"] = _
    rw [h1, if_neg hcoll]
  refine ⟨hcoll, hkr, ?_⟩
  intro hEq
  have hmem : "No critical risks identified" ∈ (collectRisks req).take 5 := by
    rw [← hkr, hEq]
    exact List.mem_singleton.mpr rfl
  have hmem2 : "No critical risks identified" ∈ collectRisks req := List.mem_of_mem_take hmem
  obtain ⟨s2, hs2, hx⟩ := List.mem_flatMap.mp hmem2
  exact risk_entry_ne_default _ (mem_supplierRisks _ _ _ hx) rfl

/-- Witness for C10: a concrete request whose level evaluates to High has a
non-default, supplier-derived key-risks list. -/
theorem fallback_high_key_risks_witness :
    collectRisks reqHigh ≠ [] ∧
      (FallbackInsightGenerator.generate reqHigh).key_risks = (collectRisks reqHigh).take 5 ∧
      (FallbackInsightGenerator.generate reqHigh).key_risks ≠ ["No critical risks identified"] :=
  fallback_high_key_risks reqHigh (by decide) (by with_unfolding_all rfl)

/-- Claim C2: whenever the external path fails at any stage, the handler
returns exactly the fallback generator's result for the same request, the
same output as when no external client is configured, and no failure is
surfaced. -/
theorem orchestrator_fallback_on_failure (raw : Except String String) (req : InsightRequest)
    (e : String) (h : GroqService.generate_insights raw req = .error e) :
    generate_insights (some raw) req = FallbackInsightGenerator.generate req ∧
      generate_insights none req = FallbackInsightGenerator.generate req := by
  constructor
  · have hred : generate_insights (some raw) req =
        (match GroqService.generate_insights raw req with
          | .ok r => r
          | .error _ => FallbackInsightGenerator.generate req) := rfl
    rw [hred]
    simp only [h]
  · rfl

/-- Witness for C2: on unparseable external output the handler's result is
the pure fallback output. -/
theorem orchestrator_fallback_on_failure_witness :
    generate_insights (some (.ok "no braces at all")) reqFall =
        FallbackInsightGenerator.generate reqFall ∧
      generate_insights none reqFall = FallbackInsightGenerator.generate reqFall :=
  orchestrator_fallback_on_failure (.ok "no braces at all") reqFall "Failed to parse JSON"
    (by with_unfolding_all rfl)

/-- Claim C8: the parser is all-or-nothing. A direct decode of the cleaned
text is returned as is; on direct failure the brace-bounded substring is
decoded when one exists and a decode failure propagates; with no
brace-bounded substring the parser fails; and every successful result is a
complete decode of one of the two candidate texts. -/
theorem parse_response_all_or_nothing (text : String) :
    (∀ v, jsonLoadsL (cleanedText text) = some v → parse_response text = .ok v) ∧
      (jsonLoadsL (cleanedText text) = none →
        ∀ sub, braceSubstring (cleanedText text) = some sub →
          parse_response text =
            (match jsonLoadsL sub with
              | some v => .ok v
              | none => .error "JSONDecodeError")) ∧
      (jsonLoadsL (cleanedText text) = none → braceSubstring (cleanedText text) = none →
        parse_response text = .error "Failed to parse JSON") ∧
      (∀ v, parse_response text = .ok v →
        jsonLoadsL (cleanedText text) = some v ∨
          ∃ sub, braceSubstring (cleanedText text) = some sub ∧ jsonLoadsL sub = some v) := by
  have hdef : parse_response text =
      (match jsonLoadsL (cleanedText text) with
        | some v => .ok v
        | none =>
          match braceSubstring (cleanedText text) with
          | some sub =>
            match jsonLoadsL sub with
            | some v => .ok v
            | none => .error "JSONDecodeError"
          | none => .error "Failed to parse JSON") := rfl
  refine ⟨?_, ?_, ?_, ?_⟩
  · intro v hv
    rw [hdef]
    simp only [hv]
  · intro hn sub hsub
    rw [hdef]
    simp only [hn, hsub]
  · intro hn hnb
    rw [hdef]
    simp only [hn, hnb]
  · intro v hv
    rw [hdef] at hv
    cases hj : jsonLoadsL (cleanedText text) with
    | some w =>
      simp only [hj] at hv
      have hwv : w = v := by injection hv
      exact Or.inl (congrArg some hwv)
    | none =>
      simp only [hj] at hv
      cases hb : braceSubstring (cleanedText text) with
      | none =>
        simp only [hb] at hv
        exact Except.noConfusion hv
      | some sub =>
        simp only [hb] at hv
        cases hs : jsonLoadsL sub with
        | none =>
          simp only [hs] at hv
          exact Except.noConfusion hv
        | some w =>
          simp only [hs] at hv
          have hwv : w = v := by injection hv
          exact Or.inr ⟨sub, rfl, hs.trans (congrArg some hwv)⟩

/-- Witness for C8: on text with no brace-bounded substring both attempts
fail and the parser raises. -/
theorem parse_response_all_or_nothing_witness :
    parse_response "no braces here" = .error "Failed to parse JSON" :=
  (parse_response_all_or_nothing "no braces here").2.2.1 (by with_unfolding_all rfl)
    (by with_unfolding_all rfl)

/-- Half-even rounding of a non-negative value is non-negative. -/
theorem pyRoundHalfEven_nonneg (q : ℚ) (h : 0 ≤ q) : 0 ≤ pyRoundHalfEven q := by
  have hdef : pyRoundHalfEven q =
      (if q - (⌊q⌋ : ℚ) < 1 / 2 then ⌊q⌋
        else if 1 / 2 < q - (⌊q⌋ : ℚ) then ⌊q⌋ + 1
        else if ⌊q⌋ % 2 = 0 then ⌊q⌋ else ⌊q⌋ + 1) := rfl
  rw [hdef]
  have hf : 0 ≤ ⌊q⌋ := Int.le_floor.mpr (by exact_mod_cast h)
  split_ifs <;> omega

/-- Half-even rounding never exceeds an integer bound of the argument. -/
theorem pyRoundHalfEven_le (q : ℚ) (n : ℤ) (h : q ≤ n) : pyRoundHalfEven q ≤ n := by
  have hdef : pyRoundHalfEven q =
      (if q - (⌊q⌋ : ℚ) < 1 / 2 then ⌊q⌋
        else if 1 / 2 < q - (⌊q⌋ : ℚ) then ⌊q⌋ + 1
        else if ⌊q⌋ % 2 = 0 then ⌊q⌋ else ⌊q⌋ + 1) := rfl
  rw [hdef]
  have hfn : ⌊q⌋ ≤ n := by
    have h2 := Int.floor_le_floor h
    rwa [Int.floor_intCast] at h2
  have hfl : (⌊q⌋ : ℚ) ≤ q := Int.floor_le q
  split_ifs with h1 h2 h3
  · exact hfn
  · have hr : (1 : ℚ) / 2 ≤ q - ⌊q⌋ := not_lt.mp h1
    have hlt : (⌊q⌋ : ℚ) < (n : ℚ) := by linarith
    have hint : ⌊q⌋ < n := by exact_mod_cast hlt
    omega
  · exact hfn
  · have hr : (1 : ℚ) / 2 ≤ q - ⌊q⌋ := not_lt.mp h1
    have hlt : (⌊q⌋ : ℚ) < (n : ℚ) := by linarith
    have hint : ⌊q⌋ < n := by exact_mod_cast hlt
    omega

/-- Rounding to two decimals keeps a value of the unit interval inside the
unit interval. -/
theorem pyRound2_mem_unit (q : ℚ) (h0 : 0 ≤ q) (h1 : q ≤ 1) :
    0 ≤ pyRound2 q ∧ pyRound2 q ≤ 1 := by
  unfold pyRound2
  constructor
  · have h2 := pyRoundHalfEven_nonneg (q * 100) (by positivity)
    have h3 : (0 : ℚ) ≤ (pyRoundHalfEven (q * 100) : ℚ) := by exact_mod_cast h2
    linarith
  · have h2 := pyRoundHalfEven_le (q * 100) 100 (by push_cast; linarith)
    have h3 : ((pyRoundHalfEven (q * 100)) : ℚ) ≤ 100 := by exact_mod_cast h2
    linarith

/-- The clamp `max(0, min(1, c))` lands in the unit interval. -/
theorem clamp01_mem (c : ℚ) : 0 ≤ max 0 (min 1 c) ∧ max 0 (min 1 c) ≤ 1 :=
  ⟨le_max_left _ _, max_le (by norm_num) (min_le_left _ _)⟩

/-- Converting a list of string values succeeds and preserves length. -/
theorem asStringList_ok (l : List JVal) (h : ∀ x ∈ l, isStrVal x = true) :
    ∃ ss : List String, asStringList l = .ok ss ∧ ss.length = l.length := by
  induction l with
  | nil => exact ⟨[], rfl, rfl⟩
  | cons a t ih =>
    have ha := h a (List.mem_cons_self a t)
    obtain ⟨ss, hss, hlen⟩ := ih (fun x hx => h x (List.mem_cons_of_mem _ hx))
    cases a with
    | jstr s =>
      refine ⟨s :: ss, ?_, by simp [hlen]⟩
      show (match asString (JVal.jstr s) with
        | Except.error e => Except.error e
        | Except.ok s =>
          match asStringList t with
          | Except.error e => Except.error e
          | Except.ok ss => Except.ok (s :: ss)) = _
      rw [hss]
      rfl
    | jnull => simp [isStrVal] at ha
    | jbool b => simp [isStrVal] at ha
    | jnum q => simp [isStrVal] at ha
    | jarr xs => simp [isStrVal] at ha
    | jobj ps => simp [isStrVal] at ha

/-- Converting a list that is literally made of strings recovers them. -/
theorem asStringList_map_jstr (l : List String) :
    asStringList (l.map JVal.jstr) = .ok l := by
  induction l with
  | nil => rfl
  | cons s t ih =>
    show (match asString (JVal.jstr s) with
      | Except.error e => Except.error e
      | Except.ok s =>
        match asStringList (t.map JVal.jstr) with
        | Except.error e => Except.error e
        | Except.ok ss => Except.ok (s :: ss)) = _
    rw [ih]
    rfl

/-- A well-shaped (absent or string) risk-level field extracts
successfully. -/
theorem extractRiskLevel_ok (d : JDict)
    (h : optHolds isStrVal (dictGet d "overall_risk_level") = true) :
    ∃ lvl, extractRiskLevel d = .ok lvl := by
  unfold extractRiskLevel
  cases hL : dictGet d "overall_risk_level" with
  | none => exact ⟨_, rfl⟩
  | some v =>
    rw [hL] at h
    unfold optHolds at h
    cases v with
    | jstr s => exact ⟨_, rfl⟩
    | jnull => simp [isStrVal] at h
    | jbool b => simp [isStrVal] at h
    | jnum q => simp [isStrVal] at h
    | jarr xs => simp [isStrVal] at h
    | jobj ps => simp [isStrVal] at h

/-- A well-shaped (absent or coercible) confidence field extracts
successfully, and the clamp puts it in the unit interval. -/
theorem extractConfidence_ok (d : JDict)
    (h : optHolds coercibleB (dictGet d "confidence_score") = true) :
    ∃ c, extractConfidence d = .ok c ∧ 0 ≤ c ∧ c ≤ 1 := by
  unfold extractConfidence
  cases hC : dictGet d "confidence_score" with
  | none => exact ⟨_, rfl, (clamp01_mem _).1, (clamp01_mem _).2⟩
  | some v =>
    rw [hC] at h
    simp only [optHolds, coercibleB] at h
    cases hf : pyFloat v with
    | error e =>
      simp only [hf] at h
      exact Bool.noConfusion h
    | ok q =>
      refine ⟨max 0 (min 1 q), ?_, (clamp01_mem q).1, (clamp01_mem q).2⟩
      show (match pyFloat v with
        | Except.error e => Except.error e
        | Except.ok c => Except.ok (max 0 (min 1 c))) = _
      rw [hf]

/-- A well-shaped (absent or non-empty string list) list field extracts
successfully into a list of one to ten entries, the default exactly when the
field is absent. -/
theorem extractListField_ok (d : JDict) (key deflt : String)
    (h : optHolds isGoodListVal (dictGet d key) = true) :
    ∃ ls, extractListField d key deflt = .ok ls ∧ 1 ≤ ls.length ∧ ls.length ≤ 10 ∧
      (dictGet d key = none → ls = [deflt]) := by
  unfold extractListField
  cases hK : dictGet d key with
  | none => exact ⟨[deflt], rfl, by simp, by simp, fun _ => rfl⟩
  | some v =>
    rw [hK] at h
    unfold optHolds at h
    cases v with
    | jarr xs =>
      simp only [isGoodListVal, Bool.and_eq_true, Bool.not_eq_eq_eq_not, Bool.not_true,
        List.all_eq_true] at h
      obtain ⟨hne, hall⟩ := h
      obtain ⟨ss, hss, hlen⟩ := asStringList_ok (xs.take 10) hall
      have hxs : xs ≠ [] := by
        intro h0
        rw [h0] at hne
        simp at hne
      refine ⟨ss, hss, ?_, ?_, fun hcon => Option.noConfusion hcon⟩
      · rw [hlen, List.length_take]
        have : xs.length ≠ 0 := fun h0 => hxs (List.length_eq_zero.mp h0)
        omega
      · rw [hlen, List.length_take]
        omega
    | jnull => simp [isGoodListVal] at h
    | jbool b => simp [isGoodListVal] at h
    | jnum q => simp [isGoodListVal] at h
    | jstr s => simp [isGoodListVal] at h
    | jobj ps => simp [isGoodListVal] at h

/-- Inversion of a successful normalization: each extraction succeeded, the
constructed record is the one returned, and the pydantic constraints hold. -/
theorem validate_response_ok_inv (d : JDict) (req : InsightRequest) (r : InsightResponse)
    (h : validate_response d req = .ok r) :
    ∃ lvl conf kr nl ra,
      extractRiskLevel d = .ok lvl ∧ extractConfidence d = .ok conf ∧
      extractListField d "key_risks" "No risks identified" = .ok kr ∧
      extractListField d "negotiation_levers" "Review contracts" = .ok nl ∧
      extractListField d "recommended_actions_next_90_days" "Conduct review" = .ok ra ∧
      r = ⟨req.category, lvl, kr, nl, ra, pyRound2 conf⟩ ∧
      1 ≤ kr.length ∧ kr.length ≤ 10 ∧ 1 ≤ nl.length ∧ nl.length ≤ 10 ∧
      1 ≤ ra.length ∧ ra.length ≤ 10 ∧ 0 ≤ pyRound2 conf ∧ pyRound2 conf ≤ 1 := by
  unfold validate_response at h
  cases hL : extractRiskLevel d with
  | error e =>
    simp only [hL] at h
    exact Except.noConfusion h
  | ok lvl =>
    simp only [hL] at h
    cases hC : extractConfidence d with
    | error e =>
      simp only [hC] at h
      exact Except.noConfusion h
    | ok conf =>
      simp only [hC] at h
      cases hK : extractListField d "key_risks" "No risks identified" with
      | error e =>
        simp only [hK] at h
        exact Except.noConfusion h
      | ok kr =>
        simp only [hK] at h
        cases hN : extractListField d "negotiation_levers" "Review contracts" with
        | error e =>
          simp only [hN] at h
          exact Except.noConfusion h
        | ok nl =>
          simp only [hN] at h
          cases hR : extractListField d "recommended_actions_next_90_days" "Conduct review" with
          | error e =>
            simp only [hR] at h
            exact Except.noConfusion h
          | ok ra =>
            simp only [hR] at h
            unfold mkInsightResponse at h
            split_ifs at h with hb
            obtain ⟨h1, h2, h3, h4, h5, h6, h7, h8⟩ := hb
            exact ⟨lvl, conf, kr, nl, ra, rfl, rfl, rfl, rfl, rfl,
              (Except.ok.inj h).symm, h1, h2, h3, h4, h5, h6, h7, h8⟩

/-- Counterexample to C3 as stated: the normalizer does raise on a parsed
object whose fields are present but of the wrong shape — a non-string risk
level raises on the case-folding call, and a present-but-empty list field
propagates and is rejected by the output-contract validation rather than
being replaced by the default placeholder. -/
theorem normalizer_raises_counterexample :
    validate_response dBadLevel reqShape = .error "AttributeError: lower" ∧
      validate_response dEmptyList reqShape = .error "ValidationError" := by
  constructor <;> with_unfolding_all rfl

/-- Claim C3 (amended): for every parsed object whose present fields are
well-shaped — risk level a string, confidence coercible to a number, list
fields non-empty lists whose first ten entries are strings — the normalizer
returns a fully-conforming result with non-empty list fields, substituting
the single-element default placeholder exactly for absent list fields. -/
theorem normalizer_wellshaped_total (d : JDict) (req : InsightRequest)
    (h : WellShapedB d = true) :
    ∃ r, validate_response d req = .ok r ∧
      1 ≤ r.key_risks.length ∧ 1 ≤ r.negotiation_levers.length ∧
      1 ≤ r.recommended_actions_next_90_days.length ∧
      (dictGet d "key_risks" = none → r.key_risks = ["No risks identified"]) ∧
      (dictGet d "negotiation_levers" = none → r.negotiation_levers = ["Review contracts"]) ∧
      (dictGet d "recommended_actions_next_90_days" = none →
        r.recommended_actions_next_90_days = ["Conduct review"]) := by
  simp only [WellShapedB, Bool.and_eq_true] at h
  obtain ⟨⟨⟨⟨h1, h2⟩, h3⟩, h4⟩, h5⟩ := h
  obtain ⟨lvl, hL⟩ := extractRiskLevel_ok d h1
  obtain ⟨conf, hC, hc0, hc1⟩ := extractConfidence_ok d h2
  obtain ⟨kr, hK, hk1, hk10, hkd⟩ := extractListField_ok d "key_risks" "No risks identified" h3
  obtain ⟨nl, hN, hn1, hn10, hnd⟩ :=
    extractListField_ok d "negotiation_levers" "Review contracts" h4
  obtain ⟨ra, hR, hr1, hr10, hrd⟩ :=
    extractListField_ok d "recommended_actions_next_90_days" "Conduct review" h5
  obtain ⟨hp0, hp1⟩ := pyRound2_mem_unit conf hc0 hc1
  refine ⟨⟨req.category, lvl, kr, nl, ra, pyRound2 conf⟩, ?_, hk1, hn1, hr1, hkd, hnd, hrd⟩
  unfold validate_response
  simp only [hL, hC, hK, hN, hR]
  unfold mkInsightResponse
  rw [if_pos]
  exact ⟨hk1, hk10, hn1, hn10, hr1, hr10, hp0, hp1⟩

/-- Witness for the amended C3: a concrete well-shaped object with a present
one-entry list and an out-of-range confidence normalizes successfully with
non-empty list fields and defaults for the absent fields. -/
theorem normalizer_wellshaped_total_witness :
    ∃ r, validate_response dWellA reqFall = .ok r ∧
      1 ≤ r.key_risks.length ∧ 1 ≤ r.negotiation_levers.length ∧
      1 ≤ r.recommended_actions_next_90_days.length ∧
      (dictGet dWellA "key_risks" = none → r.key_risks = ["No risks identified"]) ∧
      (dictGet dWellA "negotiation_levers" = none → r.negotiation_levers = ["Review contracts"]) ∧
      (dictGet dWellA "recommended_actions_next_90_days" = none →
        r.recommended_actions_next_90_days = ["Conduct review"]) :=
  normalizer_wellshaped_total dWellA reqFall (by with_unfolding_all rfl)

/-- An absent risk-level field defaults to Medium. -/
theorem extractRiskLevel_absent (d : JDict) (h : dictGet d "overall_risk_level" = none) :
    extractRiskLevel d = .ok RiskLevel.MEDIUM := by
  unfold extractRiskLevel
  simp only [h, Option.getD_none]
  with_unfolding_all rfl

/-- A present string risk-level field is case-folded and mapped. -/
theorem extractRiskLevel_str (d : JDict) (s : String)
    (h : dictGet d "overall_risk_level" = some (JVal.jstr s)) :
    extractRiskLevel d = .ok (risk_map_lookup (lowerStr s)) := by
  unfold extractRiskLevel
  simp only [h, Option.getD_some]

/-- An absent confidence field defaults to 0.7 before clamping. -/
theorem extractConfidence_absent (d : JDict) (h : dictGet d "confidence_score" = none) :
    extractConfidence d = .ok (max 0 (min 1 0.7)) := by
  unfold extractConfidence
  simp only [h, Option.getD_none]
  rfl

/-- A present numeric confidence field is clamped into the unit interval. -/
theorem extractConfidence_num (d : JDict) (q : ℚ)
    (h : dictGet d "confidence_score" = some (JVal.jnum q)) :
    extractConfidence d = .ok (max 0 (min 1 q)) := by
  unfold extractConfidence
  simp only [h, Option.getD_some]
  rfl

/-- An absent list field is replaced by its one-element default. -/
theorem extractListField_absent (d : JDict) (key deflt : String)
    (h : dictGet d key = none) :
    extractListField d key deflt = .ok [deflt] := by
  unfold extractListField
  simp only [h]

/-- A present list of strings is truncated to its first ten entries. -/
theorem extractListField_present (d : JDict) (key deflt : String) (xs : List String)
    (h : dictGet d key = some (JVal.jarr (xs.map JVal.jstr))) :
    extractListField d key deflt = .ok (xs.take 10) := by
  unfold extractListField
  simp only [h]
  rw [← List.map_take, asStringList_map_jstr]

/-- Counterexample to C5 as stated: for a parsed object with a present but
empty list field the normalizer produces no result at all — the empty
sequence propagates into the output-contract validation and raises. -/
theorem normalizer_mapping_counterexample :
    validate_response dEmptyList reqConf = .error "ValidationError" := by
  with_unfolding_all rfl

/-- Claim C5 (amended): whenever the normalizer succeeds, the produced
result maps the fields as specified: the risk level is the case-insensitive
match of a present string field, defaulting to Medium when absent; the
confidence is the present numeric field (default 0.7 when absent) clamped
into the unit interval and rounded to two decimals; each list field is the
present string sequence truncated to its first ten entries, or its
field-specific single-element default when absent. -/
theorem normalizer_field_mapping (d : JDict) (req : InsightRequest) (r : InsightResponse)
    (h : validate_response d req = .ok r) :
    r.category = req.category ∧
      (dictGet d "overall_risk_level" = none → r.overall_risk_level = RiskLevel.MEDIUM) ∧
      (∀ s, dictGet d "overall_risk_level" = some (JVal.jstr s) →
        r.overall_risk_level = risk_map_lookup (lowerStr s)) ∧
      (dictGet d "confidence_score" = none → r.confidence_score = 0.7) ∧
      (∀ q, dictGet d "confidence_score" = some (JVal.jnum q) →
        r.confidence_score = pyRound2 (max 0 (min 1 q))) ∧
      (dictGet d "key_risks" = none → r.key_risks = ["No risks identified"]) ∧
      (∀ xs : List String, dictGet d "key_risks" = some (JVal.jarr (xs.map JVal.jstr)) →
        r.key_risks = xs.take 10) ∧
      (dictGet d "negotiation_levers" = none → r.negotiation_levers = ["Review contracts"]) ∧
      (∀ xs : List String,
        dictGet d "negotiation_levers" = some (JVal.jarr (xs.map JVal.jstr)) →
        r.negotiation_levers = xs.take 10) ∧
      (dictGet d "recommended_actions_next_90_days" = none →
        r.recommended_actions_next_90_days = ["Conduct review"]) ∧
      (∀ xs : List String,
        dictGet d "recommended_actions_next_90_days" = some (JVal.jarr (xs.map JVal.jstr)) →
        r.recommended_actions_next_90_days = xs.take 10) := by
  obtain ⟨lvl, conf, kr, nl, ra, hL, hC, hK, hN, hR, hreq, -, -, -, -, -, -, -, -⟩ :=
    validate_response_ok_inv d req r h
  subst hreq
  refine ⟨rfl, ?_, ?_, ?_, ?_, ?_, ?_, ?_, ?_, ?_, ?_⟩
  · intro hn
    show lvl = RiskLevel.MEDIUM
    exact Except.ok.inj (hL.symm.trans (extractRiskLevel_absent d hn))
  · intro s hs
    show lvl = risk_map_lookup (lowerStr s)
    exact Except.ok.inj (hL.symm.trans (extractRiskLevel_str d s hs))
  · intro hn
    show pyRound2 conf = 0.7
    have hc : conf = max 0 (min 1 0.7) :=
      Except.ok.inj (hC.symm.trans (extractConfidence_absent d hn))
    rw [hc]
    with_unfolding_all rfl
  · intro q hq
    show pyRound2 conf = pyRound2 (max 0 (min 1 q))
    have hc : conf = max 0 (min 1 q) :=
      Except.ok.inj (hC.symm.trans (extractConfidence_num d q hq))
    rw [hc]
  · intro hn
    show kr = ["No risks identified"]
    exact Except.ok.inj (hK.symm.trans (extractListField_absent d _ _ hn))
  · intro xs hxs
    show kr = xs.take 10
    exact Except.ok.inj (hK.symm.trans (extractListField_present d _ _ xs hxs))
  · intro hn
    show nl = ["Review contracts"]
    exact Except.ok.inj (hN.symm.trans (extractListField_absent d _ _ hn))
  · intro xs hxs
    show nl = xs.take 10
    exact Except.ok.inj (hN.symm.trans (extractListField_present d _ _ xs hxs))
  · intro hn
    show ra = ["Conduct review"]
    exact Except.ok.inj (hR.symm.trans (extractListField_absent d _ _ hn))
  · intro xs hxs
    show ra = xs.take 10
    exact Except.ok.inj (hR.symm.trans (extractListField_present d _ _ xs hxs))

/-- Witness for the amended C5: on a concrete well-shaped object the mapped
fields of the produced result are as asserted — an uppercase High maps to
High, a present two-entry list is kept, and the confidence 0.834 is rounded
to 0.83. -/
theorem normalizer_field_mapping_witness :
    rWellB.overall_risk_level = risk_map_lookup (lowerStr "HIGH") ∧
      rWellB.negotiation_levers = ["L1", "L2"].take 10 ∧
      rWellB.confidence_score = pyRound2 (max 0 (min 1 0.834)) ∧
      rWellB.key_risks = ["No risks identified"] := by
  have hmap := normalizer_field_mapping dWellB reqConf rWellB (by with_unfolding_all rfl)
  exact ⟨hmap.2.2.1 "HIGH" (by with_unfolding_all rfl),
    hmap.2.2.2.2.2.2.2.2.1 ["L1", "L2"] (by with_unfolding_all rfl),
    hmap.2.2.2.2.1 0.834 (by with_unfolding_all rfl),
    hmap.2.2.2.2.2.1 (by with_unfolding_all rfl)⟩

/-- Claim C7: a successful external-path result decomposes into a raw text,
a parsed value and a normalized record whose confidence lies in the unit
interval after clamping and rounding; the returned confidence is exactly
`min(0.95, normalized + 0.2)`, applied once after normalization, hence lies
in `[0.2, 0.95]`. -/
theorem external_confidence_bonus (raw : Except String String) (req : InsightRequest)
    (r : InsightResponse) (h : GroqService.generate_insights raw req = .ok r) :
    ∃ text data resp, raw = .ok text ∧ parse_response text = .ok data ∧
      validateParsed data req = .ok resp ∧
      0 ≤ resp.confidence_score ∧ resp.confidence_score ≤ 1 ∧
      r = { resp with confidence_score := min 0.95 (resp.confidence_score + 0.2) } ∧
      0.2 ≤ r.confidence_score ∧ r.confidence_score ≤ 0.95 := by
  unfold GroqService.generate_insights at h
  cases raw with
  | error e => exact Except.noConfusion h
  | ok text =>
    cases hp : parse_response text with
    | error e =>
      simp only [hp] at h
      exact Except.noConfusion h
    | ok data =>
      simp only [hp] at h
      cases hv : validateParsed data req with
      | error e =>
        simp only [hv] at h
        exact Except.noConfusion h
      | ok resp =>
        simp only [hv] at h
        have hr : r = { resp with confidence_score := min 0.95 (resp.confidence_score + 0.2) } :=
          (Except.ok.inj h).symm
        have hb : 0 ≤ resp.confidence_score ∧ resp.confidence_score ≤ 1 := by
          cases data with
          | jobj dd =>
            have hvr : validate_response dd req = .ok resp := hv
            obtain ⟨lvl, conf, kr, nl, ra, -, -, -, -, -, hreq, -, -, -, -, -, -, h7, h8⟩ :=
              validate_response_ok_inv dd req resp hvr
            rw [hreq]
            exact ⟨h7, h8⟩
          | jnull => exact Except.noConfusion hv
          | jbool b => exact Except.noConfusion hv
          | jnum q => exact Except.noConfusion hv
          | jstr s => exact Except.noConfusion hv
          | jarr xs => exact Except.noConfusion hv
        obtain ⟨hb0, hb1⟩ := hb
        refine ⟨text, data, resp, rfl, hp, hv, hb0, hb1, hr, ?_, ?_⟩
        · rw [hr]
          show (0.2 : ℚ) ≤ min 0.95 (resp.confidence_score + 0.2)
          exact le_min (by norm_num) (by linarith)
        · rw [hr]
          show min (0.95 : ℚ) (resp.confidence_score + 0.2) ≤ 0.95
          exact min_le_left _ _

/-- Witness for C7: concrete external output with confidence one half is
normalized to one half and returned with confidence 0.7 after the bonus. -/
theorem external_confidence_bonus_witness :
    ∃ text data resp, rawConf = .ok text ∧ parse_response text = .ok data ∧
      validateParsed data reqConf = .ok resp ∧
      0 ≤ resp.confidence_score ∧ resp.confidence_score ≤ 1 ∧
      rConfBonus = { resp with confidence_score := min 0.95 (resp.confidence_score + 0.2) } ∧
      0.2 ≤ rConfBonus.confidence_score ∧ rConfBonus.confidence_score ≤ 0.95 :=
  external_confidence_bonus rawConf reqConf rConfBonus (by with_unfolding_all rfl)
